import Mathlib

/-!
Verification development for the forward-collision-warning core
(`core/collision.py`, the canonical of the two near-duplicate files).

The numeric state is embedded over `ℚ` (exact arithmetic).  The external
collaborators (the `filterpy` Kalman filter, the `shapely` polygon, the
camera object from `geometry`) are embedded at their interfaces:

* the Kalman filter is a record of its matrices and state, with
  `predict`/`update` the standard linear-Gaussian equations the library
  implements;
* a shapely polygon enters the core only through its `intersects` test
  against a polyline, so a zone is embedded as its characteristic
  intersection predicate on polylines;
* the camera is a record of `K_new`, `RT_inv` and the rectification map.

`distance` (a real square root, `np.linalg.norm`, with `np.inf` for the
pre-first-update sentinel) is embedded with values in `EReal`; the
decidable comparison `distLtB` used by the executable guard is proved
equivalent to `distance < radius` in `distLtB_iff`.
-/

/-- 6-dimensional kinematic state `[x, vx, ax, y, vy, ay]`. -/
abbrev Vec6 := Fin 6 → ℚ

/-- `F_matrix(dt)` from `collision.py`: block-diagonal constant-acceleration
state transition, `dt2 = 0.5*dt**2`. -/
def F_matrix (dt : ℚ) : Matrix (Fin 6) (Fin 6) ℚ :=
  Matrix.of
    ![![1, dt, 0.5 * dt ^ 2, 0, 0, 0],
      ![0, 1, dt, 0, 0, 0],
      ![0, 0, 1, 0, 0, 0],
      ![0, 0, 0, 1, dt, 0.5 * dt ^ 2],
      ![0, 0, 0, 0, 1, dt],
      ![0, 0, 0, 0, 0, 1]]

/-- The fixed measurement matrix `kf.H` of `object_tracker`: observes the
two position components. -/
def H_matrix : Matrix (Fin 2) (Fin 6) ℚ :=
  Matrix.of ![![1, 0, 0, 0, 0, 0], ![0, 0, 0, 1, 0, 0]]

/-- The velocity-selection matrix used by `PointWorldObject.update` for
`vxvy`. -/
def V_matrix : Matrix (Fin 2) (Fin 6) ℚ :=
  Matrix.of ![![0, 1, 0, 0, 0, 0], ![0, 0, 0, 0, 1, 0]]

/-- Explicit inverse of a 2×2 rational matrix (adjugate over determinant);
embeds `numpy.linalg.inv` on the innovation covariance, which is
invertible in every reachable filter state. -/
def inv2 (A : Matrix (Fin 2) (Fin 2) ℚ) : Matrix (Fin 2) (Fin 2) ℚ :=
  (A 0 0 * A 1 1 - A 0 1 * A 1 0)⁻¹ •
    Matrix.of ![![A 1 1, -(A 0 1)], ![-(A 1 0), A 0 0]]

/-- `filterpy.common.Q_discrete_white_noise(dim=3, dt, var, block_size=2)`:
two identical 3×3 discrete-white-noise blocks on the diagonal. -/
def Q_discrete_white_noise (dt var : ℚ) : Matrix (Fin 6) (Fin 6) ℚ :=
  let B : Matrix (Fin 3) (Fin 3) ℚ :=
    Matrix.of
      ![![dt ^ 4 / 4, dt ^ 3 / 2, dt ^ 2 / 2],
        ![dt ^ 3 / 2, dt ^ 2, dt],
        ![dt ^ 2 / 2, dt, 1]]
  var • Matrix.of (fun i j : Fin 6 =>
    if h : (i : ℕ) < 3 then
      if h2 : (j : ℕ) < 3 then B ⟨i, h⟩ ⟨j, h2⟩ else 0
    else
      if h2 : 3 ≤ (j : ℕ) then B ⟨i - 3, by omega⟩ ⟨j - 3, by omega⟩ else 0)

/-- The `filterpy.kalman.KalmanFilter` collaborator at its interface:
the matrices `object_tracker` configures, plus the state vector. -/
structure KalmanFilter where
  F : Matrix (Fin 6) (Fin 6) ℚ
  H : Matrix (Fin 2) (Fin 6) ℚ
  P : Matrix (Fin 6) (Fin 6) ℚ
  R : Matrix (Fin 2) (Fin 2) ℚ
  Q : Matrix (Fin 6) (Fin 6) ℚ
  x : Vec6

/-- `kf.predict()`: `x ← F·x`, `P ← F·P·Fᵀ + Q` (with `alpha_sq = 1`). -/
def KalmanFilter.predict (kf : KalmanFilter) : KalmanFilter :=
  { kf with x := kf.F.mulVec kf.x, P := kf.F * kf.P * kf.F.transpose + kf.Q }

/-- `kf.update(z)`: the standard Kalman correction step
(`S = H P Hᵀ + R`, `K = P Hᵀ S⁻¹`, `x ← x + K(z - Hx)`,
`P ← (I - KH) P (I - KH)ᵀ + K R Kᵀ`, filterpy's Joseph-free form). -/
def KalmanFilter.update (kf : KalmanFilter) (z : Fin 2 → ℚ) : KalmanFilter :=
  let y : Fin 2 → ℚ := z - kf.H.mulVec kf.x
  let S : Matrix (Fin 2) (Fin 2) ℚ := kf.H * kf.P * kf.H.transpose + kf.R
  let K : Matrix (Fin 6) (Fin 2) ℚ := kf.P * kf.H.transpose * inv2 S
  let IKH : Matrix (Fin 6) (Fin 6) ℚ := 1 - K * kf.H
  { kf with
    x := kf.x + K.mulVec y
    P := IKH * kf.P * IKH.transpose + K * kf.R * K.transpose }

/-- `object_tracker(x_init, dt)` from `collision.py`: configures the filter
(`F = F_matrix dt`, selection `H`, `P = diag(1,2,4,1,2,4)*0.5`,
`R = diag(z_std², z_std²)` with `z_std = 2`, discrete white noise `Q`
with `var = 0.1²`), then seeds `x[0], x[3]` from the initial position. -/
def object_tracker (x_init : ℚ × ℚ) (dt : ℚ) : KalmanFilter :=
  { F := F_matrix dt
    H := H_matrix
    P := Matrix.diagonal ![1, 2, 4, 1, 2, 4] * (Matrix.diagonal fun _ => (1 : ℚ) / 2)
    R := Matrix.diagonal ![4, 4]
    Q := Q_discrete_white_noise dt (1 / 100)
    x := fun i => if i = 0 then x_init.1 else if i = 3 then x_init.2 else 0 }

/-- `PointWorldObject`: the filter plus the cached last measurement-space
position `xy` and velocity `vxvy`, both `None` until the first `update`. -/
structure PointWorldObject where
  kf : KalmanFilter
  xy : Option (ℚ × ℚ)
  vxvy : Option (ℚ × ℚ)

/-- `PointWorldObject.__init__(xyz, dt)`: builds the tracker from the first
two coordinates of `xyz`; `xy` and `vxvy` start as the `None` sentinel. -/
def PointWorldObject.init (xyz : ℚ × ℚ × ℚ) (dt : ℚ) : PointWorldObject :=
  { kf := object_tracker (xyz.1, xyz.2.1) dt, xy := none, vxvy := none }

/-- `PointWorldObject.update(location)`: predict, correct with the new
measurement, then cache `xy = H·x` and `vxvy = V·x`. -/
def PointWorldObject.update (o : PointWorldObject) (location : ℚ × ℚ) :
    PointWorldObject :=
  let kf1 := (o.kf.predict).update ![location.1, location.2]
  { kf := kf1
    xy := some (kf1.H.mulVec kf1.x 0, kf1.H.mulVec kf1.x 1)
    vxvy := some (V_matrix.mulVec kf1.x 0, V_matrix.mulVec kf1.x 1) }

/-- `PointWorldObject.location`: the cached `xy` (the `None` sentinel
before the first update). -/
def PointWorldObject.location (o : PointWorldObject) : Option (ℚ × ℚ) :=
  o.xy

/-- `PointWorldObject.distance`: `np.inf` before the first update,
otherwise the Euclidean norm `np.linalg.norm(xy)`; value in `EReal` with
`⊤` for the infinity sentinel. -/
noncomputable def PointWorldObject.distance (o : PointWorldObject) : EReal :=
  match o.xy with
  | none => ⊤
  | some p => ((Real.sqrt ((p.1 : ℝ) ^ 2 + (p.2 : ℝ) ^ 2) : ℝ) : EReal)

/-- Decidable rendering of the comparison `obj.distance < r` used by
`dangerous_objects` (`distLtB_iff` proves it coincides with
`PointWorldObject.distance < r`). -/
def distLtB (o : PointWorldObject) (r : ℚ) : Bool :=
  match o.xy with
  | none => false
  | some p => decide (0 ≤ r ∧ p.1 ^ 2 + p.2 ^ 2 < r ^ 2)

theorem distLtB_iff (o : PointWorldObject) (r : ℚ) :
    distLtB o r = true ↔ o.distance < ((r : ℝ) : EReal) := by
  cases hxy : o.xy with
  | none =>
      simp [distLtB, PointWorldObject.distance, hxy]
  | some p =>
      simp only [distLtB, PointWorldObject.distance, hxy, decide_eq_true_eq,
        EReal.coe_lt_coe_iff]
      constructor
      · rintro ⟨hr, hlt⟩
        rcases lt_or_eq_of_le hr with hr0 | hr0
        · rw [show ((r : ℝ) : ℝ) = (r : ℝ) from rfl]
          rw [Real.sqrt_lt' (by exact_mod_cast hr0)]
          exact_mod_cast hlt
        · exfalso
          have h1 : (0 : ℚ) ≤ p.1 ^ 2 := sq_nonneg _
          have h2 : (0 : ℚ) ≤ p.2 ^ 2 := sq_nonneg _
          rw [← hr0] at hlt
          nlinarith
      · intro h
        have hs : (0 : ℝ) ≤ Real.sqrt ((p.1 : ℝ) ^ 2 + (p.2 : ℝ) ^ 2) :=
          Real.sqrt_nonneg _
        have hr0 : (0 : ℝ) < (r : ℝ) := lt_of_le_of_lt hs h
        refine ⟨by exact_mod_cast hr0.le, ?_⟩
        rw [Real.sqrt_lt' hr0] at h
        exact_mod_cast h

theorem natCeil_pos_succ (q : ℚ) (hq : 0 < q) : ⌈q⌉₊ = ⌈q - 1⌉₊ + 1 := by
  apply le_antisymm
  · rw [Nat.ceil_le]
    push_cast
    have h := Nat.le_ceil (q - 1)
    linarith
  · rw [Nat.add_one_le_ceil_iff]
    rcases le_or_lt q 1 with h | h
    · have h0 : ⌈q - 1⌉₊ = 0 := Nat.ceil_eq_zero.mpr (by linarith)
      rw [h0]
      exact_mod_cast hq
    · have h0 : (0 : ℚ) ≤ q - 1 := by linarith
      have h1 := Nat.ceil_lt_add_one h0
      push_cast at h1 ⊢
      linarith

/-- The `while t < length` loop of `future_path`: the state list starts
with the current state, and each iteration appends `F_matrix(step) · x`
after advancing `t` by `step`.  Requires `0 < step` (otherwise the source
loop does not terminate; the spec makes that the caller's obligation). -/
def futureStates (len step : ℚ) (hstep : 0 < step) (t : ℚ) (x : Vec6) :
    List Vec6 :=
  if h : t < len then
    x :: futureStates len step hstep (t + step) ((F_matrix step).mulVec x)
  else [x]
termination_by ⌈(len - t) / step⌉₊
decreasing_by
  have hq : 0 < (len - t) / step := div_pos (by linarith) hstep
  have hdiv : (len - (t + step)) / step = (len - t) / step - 1 := by
    field_simp
    ring
  rw [hdiv, natCeil_pos_succ _ hq]
  exact Nat.lt_succ_self _

theorem futureStates_eq_map (len step : ℚ) (hstep : 0 < step) (t : ℚ)
    (x : Vec6) :
    futureStates len step hstep t x =
      (List.range (⌈(len - t) / step⌉₊ + 1)).map
        (fun i => ((F_matrix step).mulVec)^[i] x) := by
  induction t, x using futureStates.induct len step hstep with
  | case1 t x h ih =>
      have hq : 0 < (len - t) / step := div_pos (by linarith) hstep
      have hdiv : (len - (t + step)) / step = (len - t) / step - 1 := by
        field_simp
        ring
      have hm : ⌈(len - t) / step⌉₊ = ⌈(len - (t + step)) / step⌉₊ + 1 := by
        rw [hdiv, ← natCeil_pos_succ _ hq]
      rw [futureStates, dif_pos h, ih, hm, List.range_succ_eq_map]
      simp [List.map_map, Function.comp_def, Function.iterate_succ_apply]
  | case2 t x h =>
      have h0 : ⌈(len - t) / step⌉₊ = 0 :=
        Nat.ceil_eq_zero.mpr
          (div_nonpos_of_nonpos_of_nonneg (by linarith) hstep.le)
      rw [futureStates, dif_neg h, h0]
      simp

/-- `PointWorldObject.future_path(length, dt)`: roll the current filter
state forward and project every collected state through `kf.H`
(the polyline handed to shapely's `LineString`). -/
def PointWorldObject.future_path (o : PointWorldObject) (length step : ℚ)
    (hstep : 0 < step) : List (ℚ × ℚ) :=
  (futureStates length step hstep 0 o.kf.x).map
    (fun x => (o.kf.H.mulVec x 0, o.kf.H.mulVec x 1))

/-- A zone (shapely `Polygon`) at its interface with the core: the
characteristic predicate of its `intersects` test against a polyline. -/
abbrev Zone := List (ℚ × ℚ) → Bool

/-- `ForwardCollisionGuard`: configuration plus the registry of tracked
objects keyed by tracking identity.  `prediction_step_pos` records the
caller obligation (spec §4.1) that the rollout step is positive, without
which the source's `while` loop does not terminate. -/
structure ForwardCollisionGuard where
  dt : ℚ
  objects : List (Nat × PointWorldObject)
  danger_zone : Zone
  vehicle_zone : Zone
  safety_radius : ℚ
  prediction_length : ℚ
  prediction_step : ℚ
  prediction_step_pos : 0 < prediction_step

/-- `ForwardCollisionGuard.__init__`: stores the configuration and starts
with an empty registry. -/
def ForwardCollisionGuard.init (danger_zone vehcile_zone : Zone)
    (safety_radius prediction_length prediction_step dt : ℚ)
    (hstep : 0 < prediction_step) : ForwardCollisionGuard :=
  { dt := dt
    objects := []
    danger_zone := danger_zone
    vehicle_zone := vehcile_zone
    safety_radius := safety_radius
    prediction_length := prediction_length
    prediction_step := prediction_step
    prediction_step_pos := hstep }

/-- Body of the second loop of `ForwardCollisionGuard.update`: a new
identity is appended as a fresh `PointWorldObject`, an existing one has
`update` invoked with the first two coordinates of its reference point. -/
def syncStep (dt : ℚ) (acc : List (Nat × PointWorldObject)) :
    Nat × (ℚ × ℚ × ℚ) → List (Nat × PointWorldObject)
  | (tid, pt) =>
    if (List.lookup tid acc).isSome then
      acc.map (fun p => if p.1 = tid then (p.1, p.2.update (pt.1, pt.2.1)) else p)
    else acc ++ [(tid, PointWorldObject.init pt dt)]

/-- `ForwardCollisionGuard.update(ref_points)`: first loop pops every
tracked identity absent from `ref_points`; second loop creates or updates
an object for every identity of `ref_points`. -/
def ForwardCollisionGuard.update (g : ForwardCollisionGuard)
    (ref_points : List (Nat × (ℚ × ℚ × ℚ))) : ForwardCollisionGuard :=
  let kept := g.objects.filter (fun p => (List.lookup p.1 ref_points).isSome)
  { g with objects := ref_points.foldl (syncStep g.dt) kept }

/-- `ForwardCollisionGuard.dangerous_objects()`: keep the registry entries
whose distance is below `safety_radius` and whose future path intersects
the danger zone. -/
def ForwardCollisionGuard.dangerous_objects (g : ForwardCollisionGuard) :
    List (Nat × PointWorldObject) :=
  g.objects.filter (fun p =>
    distLtB p.2 g.safety_radius &&
    g.danger_zone
      (p.2.future_path g.prediction_length g.prediction_step
        g.prediction_step_pos))

theorem lookup_cons_eq {β : Type} (a k : Nat) (b : β) (es : List (Nat × β)) :
    List.lookup a ((k, b) :: es) = if a = k then some b else List.lookup a es := by
  simp only [List.lookup]
  rcases Nat.decEq a k with h | h
  · simp [beq_eq_false_iff_ne.mpr h, h]
  · simp [h]

theorem lookup_eq_none_of_not_mem {β : Type} (l : List (Nat × β)) (a : Nat)
    (h : a ∉ l.map Prod.fst) : List.lookup a l = none := by
  induction l with
  | nil => rfl
  | cons e es ih =>
      obtain ⟨k, b⟩ := e
      simp only [List.map_cons, List.mem_cons, not_or] at h
      rw [lookup_cons_eq, if_neg h.1]
      exact ih h.2

theorem lookup_append_single {β : Type} (l : List (Nat × β)) (a k : Nat)
    (b : β) :
    List.lookup a (l ++ [(k, b)]) =
      match List.lookup a l with
      | some v => some v
      | none => if a = k then some b else none := by
  induction l with
  | nil => simp [lookup_cons_eq]
  | cons e es ih =>
      obtain ⟨k1, b1⟩ := e
      rw [List.cons_append, lookup_cons_eq, lookup_cons_eq]
      by_cases h : a = k1 <;> simp [h, ih]

theorem lookup_map_update {β : Type} (l : List (Nat × β)) (k a : Nat)
    (f : β → β) :
    List.lookup a (l.map (fun p => if p.1 = k then (p.1, f p.2) else p)) =
      if a = k then (List.lookup a l).map f else List.lookup a l := by
  induction l with
  | nil => simp
  | cons e es ih =>
      obtain ⟨k1, b1⟩ := e
      by_cases h1 : k1 = k <;> by_cases h2 : a = k1 <;>
        simp [lookup_cons_eq, h1, h2, ih] <;> simp [h1 ▸ h2]

theorem lookup_filter_key {β : Type} (l : List (Nat × β)) (f : Nat → Bool)
    (a : Nat) :
    List.lookup a (l.filter (fun p => f p.1)) =
      if f a then List.lookup a l else none := by
  induction l with
  | nil => simp
  | cons e es ih =>
      obtain ⟨k, b⟩ := e
      by_cases hf : f k
      · by_cases hak : a = k <;>
          simp [List.filter_cons, hf, hak, lookup_cons_eq, ih]
      · simp only [List.filter_cons]
        rw [if_neg hf, ih, lookup_cons_eq]
        by_cases hak : a = k
        · subst hak
          simp [hf]
        · by_cases hfa : f a <;> simp [hfa, hak]

theorem lookup_foldl_syncStep (dt : ℚ) (ref : List (Nat × (ℚ × ℚ × ℚ)))
    (hnd : (ref.map Prod.fst).Nodup) (acc : List (Nat × PointWorldObject))
    (a : Nat) :
    List.lookup a (ref.foldl (syncStep dt) acc) =
      match List.lookup a ref, List.lookup a acc with
      | none, r => r
      | some pt, some o => some (o.update (pt.1, pt.2.1))
      | some pt, none => some (PointWorldObject.init pt dt) := by
  induction ref generalizing acc with
  | nil =>
      rw [List.foldl_nil]
      cases List.lookup a acc <;> rfl
  | cons e rest ih =>
      obtain ⟨k, pt⟩ := e
      simp only [List.map_cons, List.nodup_cons] at hnd
      rw [List.foldl_cons, ih hnd.2, lookup_cons_eq]
      by_cases hak : a = k
      · subst hak
        have hrest : List.lookup a rest = none :=
          lookup_eq_none_of_not_mem rest a hnd.1
        rw [hrest, if_pos rfl]
        show (match (none : Option (ℚ × ℚ × ℚ)),
            List.lookup a (syncStep dt acc (a, pt)) with
          | none, r => r
          | some pt, some o => some (o.update (pt.1, pt.2.1))
          | some pt, none => some (PointWorldObject.init pt dt)) = _
        rw [syncStep]
        cases hacc : List.lookup a acc with
        | none =>
            rw [if_neg (by simp [hacc]), lookup_append_single, hacc]
            simp
        | some o =>
            rw [if_pos (by simp [hacc]),
              lookup_map_update acc a a (fun b => b.update (pt.1, pt.2.1)),
              if_pos rfl, hacc]
            rfl
      · rw [if_neg hak]
        have hsync : List.lookup a (syncStep dt acc (k, pt)) =
            List.lookup a acc := by
          rw [syncStep]
          split
          · rw [lookup_map_update acc k a (fun b => b.update (pt.1, pt.2.1)),
              if_neg hak]
          · rw [lookup_append_single]
            cases List.lookup a acc <;> simp [hak]
        rw [hsync]

theorem update_lookup_eq (g : ForwardCollisionGuard)
    (ref : List (Nat × (ℚ × ℚ × ℚ))) (hnd : (ref.map Prod.fst).Nodup)
    (a : Nat) :
    List.lookup a (g.update ref).objects =
      match List.lookup a ref, List.lookup a g.objects with
      | none, _ => none
      | some pt, some o => some (o.update (pt.1, pt.2.1))
      | some pt, none => some (PointWorldObject.init pt g.dt) := by
  show List.lookup a
      (ref.foldl (syncStep g.dt)
        (g.objects.filter (fun p => (List.lookup p.1 ref).isSome))) = _
  rw [lookup_foldl_syncStep g.dt ref hnd _ a,
    lookup_filter_key g.objects (fun k => (List.lookup k ref).isSome) a]
  cases href : List.lookup a ref with
  | none => simp [href]
  | some pt =>
      rw [if_pos (by simp [href])]
      cases List.lookup a g.objects <;> rfl

/-- Explicit inverse of a 3×3 rational matrix (adjugate over determinant);
embeds `numpy.linalg.inv(camera.K_new)` on the invertible intrinsics the
spec assumes (`inv3_mul_self` below justifies it). -/
def inv3 (A : Matrix (Fin 3) (Fin 3) ℚ) : Matrix (Fin 3) (Fin 3) ℚ :=
  (A.det)⁻¹ • A.adjugate

theorem inv3_mul_self (A : Matrix (Fin 3) (Fin 3) ℚ) (h : A.det ≠ 0) :
    A * inv3 A = 1 := by
  rw [inv3, Matrix.mul_smul, Matrix.mul_adjugate, smul_smul,
    inv_mul_cancel₀ h, one_smul]

/-- The `geometry.Camera` collaborator at the interface `collision.py`
consumes: the rectified intrinsics `K_new`, the cached inverse extrinsics
`RT_inv` (a 3×4 matrix whose last column is the camera's world origin),
and the `rectify_points` transform. -/
structure Camera where
  K_new : Matrix (Fin 3) (Fin 3) ℚ
  RT_inv : Matrix (Fin 3) (Fin 4) ℚ
  rectify : ℚ × ℚ → ℚ × ℚ

/-- The fixed `(xyxy) -> (rx,ry)` reference-point matrix `R` of
`get_reference_points`. -/
def R_matrix : Matrix (Fin 2) (Fin 4) ℚ :=
  Matrix.of ![![1 / 2, 0, 1 / 2, 0], ![0, 0, 0, 1]]

/-- The reference pixel of one bounding box: `R @ (x1,y1,x2,y2)`, the
bottom-mid-point of the box. -/
def refPixel (bb : ℚ × ℚ × ℚ × ℚ) : ℚ × ℚ :=
  (R_matrix.mulVec ![bb.1, bb.2.1, bb.2.2.1, bb.2.2.2] 0,
   R_matrix.mulVec ![bb.1, bb.2.1, bb.2.2.1, bb.2.2.2] 1)

/-- The camera's world-space origin `O = RT_inv[:,-1]`. -/
def camOrigin (cam : Camera) : Fin 3 → ℚ := fun i => cam.RT_inv i 3

/-- The ray direction `S = X - O` for the rectified reference pixel
`rp`: `X = RT_inv @ (K_new⁻¹ @ (rx,ry,1), 1)`. -/
def rayDir (cam : Camera) (rp : ℚ × ℚ) : Fin 3 → ℚ :=
  let norm_rp := (inv3 cam.K_new).mulVec ![rp.1, rp.2, 1]
  let X := cam.RT_inv.mulVec ![norm_rp 0, norm_rp 1, norm_rp 2, 1]
  X - camOrigin cam

/-- The ground-plane intersection of one back-projected reference pixel:
`t = (n·O)/(n·S)` with `n = (0,0,1)`, `world = O - t·S`. -/
def worldPoint (cam : Camera) (rp : ℚ × ℚ) : Fin 3 → ℚ :=
  let O := camOrigin cam
  let S := rayDir cam rp
  let t := O 2 / S 2
  fun i => O i - t * S i

/-- `get_reference_points(trackers, camera, is_rectified)`: empty input
gives an empty map; otherwise each identity's bounding box is reduced to
its bottom-mid reference pixel (rectified first when the boxes come from
the distorted image), back-projected and intersected with the ground
plane, keys preserved. -/
def get_reference_points (trackers : List (Nat × (ℚ × ℚ × ℚ × ℚ)))
    (camera : Camera) (is_rectified : Bool) : List (Nat × (Fin 3 → ℚ)) :=
  if trackers = [] then []
  else
    trackers.map (fun p =>
      let rp := refPixel p.2
      let rp := if is_rectified then rp else camera.rectify rp
      (p.1, worldPoint camera rp))

theorem cons_val_five {α : Type} (x : α) (u : Fin 5 → α) :
    Matrix.vecCons x u 5 = u 4 := rfl

/-- **C6**: for every `dt` and every 6-vector state `[x, vx, ax, y, vy, ay]`,
`F_matrix dt` maps it to
`[x + vx*dt + ½ax*dt², vx + ax*dt, ax, y + vy*dt + ½ay*dt², vy + ay*dt, ay]`
(two decoupled constant-acceleration axes), and a state with zero velocity
and acceleration is mapped to itself unchanged. -/
theorem C6_F_matrix_mulVec (dt : ℚ) (v : Vec6) :
    (F_matrix dt).mulVec v =
      ![v 0 + v 1 * dt + 1 / 2 * v 2 * dt ^ 2, v 1 + v 2 * dt, v 2,
        v 3 + v 4 * dt + 1 / 2 * v 5 * dt ^ 2, v 4 + v 5 * dt, v 5] ∧
    (∀ x0 y0 : ℚ,
      (F_matrix dt).mulVec ![x0, 0, 0, y0, 0, 0] = ![x0, 0, 0, y0, 0, 0]) := by
  constructor
  · funext i
    fin_cases i <;>
      simp [F_matrix, Matrix.mulVec, Matrix.dotProduct, Fin.sum_univ_six,
        cons_val_five] <;> ring
  · intro x0 y0
    funext i
    fin_cases i <;>
      simp [F_matrix, Matrix.mulVec, Matrix.dotProduct, Fin.sum_univ_six,
        cons_val_five]

/-- **C5**: `distance` returns the Euclidean norm (the norm of
`EuclideanSpace ℝ (Fin 2)`) of the last-estimated `(x, y)` position, and
before the first update — in particular on any freshly constructed
`PointWorldObject` — it returns the infinity `⊤` (so the safety-radius
filter treats the object as unconditionally safe, cf. `distLtB_iff`). -/
theorem C5_distance_spec (o : PointWorldObject) (p : ℚ × ℚ) :
    (o.xy = some p →
      o.distance =
        ((‖(WithLp.equiv 2 (Fin 2 → ℝ)).symm ![(p.1 : ℝ), (p.2 : ℝ)]‖ : ℝ) :
          EReal)) ∧
    (o.xy = none → o.distance = ⊤) ∧
    (∀ (xyz : ℚ × ℚ × ℚ) (dt : ℚ),
      (PointWorldObject.init xyz dt).distance = ⊤) := by
  refine ⟨?_, ?_, ?_⟩
  · intro h
    have hn : ‖(WithLp.equiv 2 (Fin 2 → ℝ)).symm ![(p.1 : ℝ), (p.2 : ℝ)]‖ =
        Real.sqrt ((p.1 : ℝ) ^ 2 + (p.2 : ℝ) ^ 2) := by
      rw [EuclideanSpace.norm_eq]
      simp [Fin.sum_univ_two, Real.norm_eq_abs, sq_abs]
    rw [hn]
    simp [PointWorldObject.distance, h]
  · intro h
    simp [PointWorldObject.distance, h]
  · intro xyz dt
    simp [PointWorldObject.distance, PointWorldObject.init]

/-- A concrete observed object used by witnesses: filter at `(3,4)` with a
cached position estimate `(3,4)`. -/
def exObj : PointWorldObject :=
  { kf := object_tracker (3, 4) 1, xy := some (3, 4), vxvy := some (0, 0) }

theorem C5_distance_spec_witness :
    exObj.distance =
      ((‖(WithLp.equiv 2 (Fin 2 → ℝ)).symm ![((3 : ℚ) : ℝ), ((4 : ℚ) : ℝ)]‖ : ℝ) :
        EReal) :=
  (C5_distance_spec exObj (3, 4)).1 rfl

/-- **C4**: for `length > 0` and `step > 0`, `future_path` terminates (it
is a total function here, defined by well-founded recursion on the very
loop measure) and returns exactly `⌈length/step⌉ + 1` points; the first
point is the current estimated position (the `t = 0` sample, the filter
state projected through `kf.H`), the `i`-th point is the projection of
`F_matrix(step)` applied `i` times to the current state (so the final
sample is the first to reach accumulated time `≥ length`); two calls with
the same arguments and no intervening update return identical polylines. -/
theorem C4_future_path_spec (o : PointWorldObject) (length step : ℚ)
    (hlen : 0 < length) (hstep : 0 < step) :
    (o.future_path length step hstep).length = ⌈length / step⌉₊ + 1 ∧
    (o.future_path length step hstep).head? =
      some (o.kf.H.mulVec o.kf.x 0, o.kf.H.mulVec o.kf.x 1) ∧
    o.future_path length step hstep =
      (List.range (⌈length / step⌉₊ + 1)).map
        (fun i => (o.kf.H.mulVec (((F_matrix step).mulVec)^[i] o.kf.x) 0,
                   o.kf.H.mulVec (((F_matrix step).mulVec)^[i] o.kf.x) 1)) ∧
    o.future_path length step hstep = o.future_path length step hstep := by
  have key : o.future_path length step hstep =
      (List.range (⌈length / step⌉₊ + 1)).map
        (fun i => (o.kf.H.mulVec (((F_matrix step).mulVec)^[i] o.kf.x) 0,
                   o.kf.H.mulVec (((F_matrix step).mulVec)^[i] o.kf.x) 1)) := by
    show (futureStates length step hstep 0 o.kf.x).map _ = _
    rw [futureStates_eq_map, sub_zero, List.map_map]
    rfl
  refine ⟨?_, ?_, key, rfl⟩
  · rw [key]
    simp
  · rw [key, List.range_succ_eq_map]
    simp

/-- Witness for C4 at the concrete object `exObj`, `length = 1`,
`step = 1/2`: three samples. -/
theorem C4_future_path_spec_witness :
    (exObj.future_path 1 (1 / 2) (by norm_num)).length =
      ⌈(1 : ℚ) / (1 / 2)⌉₊ + 1 :=
  (C4_future_path_spec exObj 1 (1 / 2) (by norm_num) (by norm_num)).1

/-- A concrete guard used by witnesses: permissive danger zone, empty
registry, defaults `safety_radius = 25`, `prediction_length = 1`,
`prediction_step = 1/10`, `dt = 1`. -/
def exGuard : ForwardCollisionGuard :=
  ForwardCollisionGuard.init (fun _ => true) (fun _ => true) 25 1 (1 / 10) 1
    (by norm_num)

/-- A concrete guard whose registry already tracks `exObj` under
identity `7`. -/
def exGuard1 : ForwardCollisionGuard :=
  { dt := 1
    objects := [(7, exObj)]
    danger_zone := fun _ => true
    vehicle_zone := fun _ => true
    safety_radius := 25
    prediction_length := 1
    prediction_step := 1 / 10
    prediction_step_pos := by norm_num }

/-- **C2**: after `update(ref_points)` the registry's key set equals
exactly the key set of `ref_points`: identities absent from `ref_points`
are removed, identities new in `ref_points` are created as fresh
`PointWorldObject`s seeded at their reference point, and identities
present in both have `predict+update` invoked with the new 2D position
(the first two coordinates of the reference point). -/
theorem C2_update_registry (g : ForwardCollisionGuard)
    (ref : List (Nat × (ℚ × ℚ × ℚ))) (hnd : (ref.map Prod.fst).Nodup) :
    (∀ tid, (List.lookup tid (g.update ref).objects).isSome ↔
      (List.lookup tid ref).isSome) ∧
    (∀ tid, List.lookup tid ref = none →
      List.lookup tid (g.update ref).objects = none) ∧
    (∀ tid pt, List.lookup tid ref = some pt →
      List.lookup tid g.objects = none →
      List.lookup tid (g.update ref).objects =
        some (PointWorldObject.init pt g.dt)) ∧
    (∀ tid pt o, List.lookup tid ref = some pt →
      List.lookup tid g.objects = some o →
      List.lookup tid (g.update ref).objects =
        some (o.update (pt.1, pt.2.1))) := by
  refine ⟨?_, ?_, ?_, ?_⟩
  · intro tid
    rw [update_lookup_eq g ref hnd tid]
    cases href : List.lookup tid ref with
    | none => simp
    | some pt => cases List.lookup tid g.objects <;> simp
  · intro tid href
    rw [update_lookup_eq g ref hnd tid, href]
  · intro tid pt href hobj
    rw [update_lookup_eq g ref hnd tid, href, hobj]
  · intro tid pt o href hobj
    rw [update_lookup_eq g ref hnd tid, href, hobj]

/-- Witness for C2: identity `1` is new for `exGuard` and gets created
seeded at its reference point. -/
theorem C2_update_registry_witness :
    List.lookup 1 (exGuard.update [(1, (2, 3, 0))]).objects =
      some (PointWorldObject.init (2, 3, 0) 1) :=
  (C2_update_registry exGuard [(1, (2, 3, 0))] (by decide)).2.2.1 1 (2, 3, 0)
    rfl rfl

theorem lookup_filter_pair {β : Type} (l : List (Nat × β)) (f : Nat × β → Bool)
    (hnd : (l.map Prod.fst).Nodup) (a : Nat) (b : β) :
    List.lookup a (l.filter f) = some b ↔
      List.lookup a l = some b ∧ f (a, b) = true := by
  induction l with
  | nil => simp
  | cons e es ih =>
      obtain ⟨k, v⟩ := e
      simp only [List.map_cons, List.nodup_cons] at hnd
      by_cases hf : f (k, v)
      · rw [List.filter_cons_of_pos hf, lookup_cons_eq, lookup_cons_eq]
        by_cases hak : a = k
        · subst hak
          rw [if_pos rfl, if_pos rfl]
          constructor
          · intro h
            refine ⟨h, ?_⟩
            have hb : v = b := Option.some_inj.mp h
            rwa [hb] at hf
          · exact fun h => h.1
        · rw [if_neg hak, if_neg hak]
          exact ih hnd.2
      · rw [List.filter_cons_of_neg hf, lookup_cons_eq]
        by_cases hak : a = k
        · subst hak
          have hnone : List.lookup a (es.filter f) = none := by
            apply lookup_eq_none_of_not_mem
            intro hmem
            apply hnd.1
            obtain ⟨p, hp, hfst⟩ := List.mem_map.mp hmem
            exact List.mem_map.mpr ⟨p, (List.mem_filter.mp hp).1, hfst⟩
          rw [hnone, if_pos rfl]
          constructor
          · intro h
            exact absurd h (by simp)
          · rintro ⟨hb, hfb⟩
            rw [← Option.some_inj.mp hb] at hfb
            exact absurd hfb (by simpa using hf)
        · rw [if_neg hak]
          exact ih hnd.2

/-- **C1**: `dangerous_objects` returns exactly the tracked identities
whose object's `distance` is strictly below `safety_radius` and whose
`future_path(prediction_length, prediction_step)` intersects the danger
zone; it returns the empty map when no tracked object satisfies both
conditions (and, being a total function, it never signals an error). -/
theorem C1_dangerous_objects_spec (g : ForwardCollisionGuard)
    (hnd : (g.objects.map Prod.fst).Nodup) :
    (∀ tid o, List.lookup tid g.dangerous_objects = some o ↔
      (List.lookup tid g.objects = some o ∧
        o.distance < ((g.safety_radius : ℝ) : EReal) ∧
        g.danger_zone
          (o.future_path g.prediction_length g.prediction_step
            g.prediction_step_pos) = true)) ∧
    ((∀ p ∈ g.objects,
        ¬(p.2.distance < ((g.safety_radius : ℝ) : EReal) ∧
          g.danger_zone
            (p.2.future_path g.prediction_length g.prediction_step
              g.prediction_step_pos) = true)) →
      g.dangerous_objects = []) := by
  constructor
  · intro tid o
    rw [show g.dangerous_objects = g.objects.filter _ from rfl]
    rw [lookup_filter_pair g.objects _ hnd tid o]
    simp only [Bool.and_eq_true, distLtB_iff]
  · intro hall
    rw [show g.dangerous_objects = g.objects.filter _ from rfl,
      List.filter_eq_nil_iff]
    intro p hp
    have hnp := hall p hp
    rw [Bool.and_eq_true, distLtB_iff]
    tauto

/-- Witness for C1 at the concrete guard `exGuard1` tracking `exObj`
(distance 5 < 25, permissive zone): the characterization instantiated at
identity `7`. -/
theorem C1_dangerous_objects_spec_witness :
    List.lookup 7 exGuard1.dangerous_objects = some exObj ↔
      (List.lookup 7 exGuard1.objects = some exObj ∧
        exObj.distance < ((exGuard1.safety_radius : ℝ) : EReal) ∧
        exGuard1.danger_zone
          (exObj.future_path exGuard1.prediction_length
            exGuard1.prediction_step exGuard1.prediction_step_pos) = true) :=
  (C1_dangerous_objects_spec exGuard1 (by decide)).1 7 exObj

/-- **C10**: an identity newly created by an `update` call has `location`
equal to the `None` sentinel and `distance` equal to infinity until the
next update that includes it, and is therefore never part of
`dangerous_objects()` during the frame in which it first appeared. -/
theorem C10_new_object_unconditionally_safe (g : ForwardCollisionGuard)
    (ref : List (Nat × (ℚ × ℚ × ℚ))) (hnd : (ref.map Prod.fst).Nodup)
    (hnd2 : ((g.update ref).objects.map Prod.fst).Nodup)
    (tid : Nat) (pt : ℚ × ℚ × ℚ)
    (hnew : List.lookup tid g.objects = none)
    (hin : List.lookup tid ref = some pt) :
    List.lookup tid (g.update ref).objects =
      some (PointWorldObject.init pt g.dt) ∧
    (PointWorldObject.init pt g.dt).location = none ∧
    (PointWorldObject.init pt g.dt).distance = ⊤ ∧
    List.lookup tid (g.update ref).dangerous_objects = none := by
  have h1 : List.lookup tid (g.update ref).objects =
      some (PointWorldObject.init pt g.dt) := by
    rw [update_lookup_eq g ref hnd tid, hin, hnew]
  refine ⟨h1, rfl, rfl, ?_⟩
  cases hd : List.lookup tid (g.update ref).dangerous_objects with
  | none => rfl
  | some o =>
      exfalso
      rw [show (g.update ref).dangerous_objects =
          (g.update ref).objects.filter _ from rfl] at hd
      obtain ⟨hlk, hpred⟩ := (lookup_filter_pair _ _ hnd2 tid o).mp hd
      rw [h1] at hlk
      rw [← Option.some_inj.mp hlk] at hpred
      simp [distLtB, PointWorldObject.init] at hpred

/-- Witness for C10: identity `1` first appears in this frame, so it is
absent from `dangerous_objects` of the updated guard. -/
theorem C10_new_object_unconditionally_safe_witness :
    List.lookup 1 (exGuard.update [(1, (2, 3, 0))]).dangerous_objects =
      none :=
  (C10_new_object_unconditionally_safe exGuard [(1, (2, 3, 0))] (by decide)
    (by decide) 1 (2, 3, 0) rfl rfl).2.2.2

/-- **C7 counterexample**: the claim says a newly appearing identity has,
after the single `update` call that created it, `location` approximately
equal to the supplied measurement.  At the concrete input below the
identity is indeed present, but its `location` is the `None` sentinel —
in particular it is not (approximately or otherwise) the measurement
`(2, 3)` — because `PointWorldObject.__init__` seeds only the filter
state and leaves `xy = None` until the next update. -/
theorem C7_counterexample :
    List.lookup 1 (exGuard.update [(1, (2, 3, 0))]).objects =
      some (PointWorldObject.init (2, 3, 0) 1) ∧
    (PointWorldObject.init (2, 3, 0) 1).location = none ∧
    (PointWorldObject.init (2, 3, 0) 1).location ≠ some (2, 3) := by
  refine ⟨rfl, rfl, ?_⟩
  simp [PointWorldObject.location, PointWorldObject.init]

/-- **C7 as amended**: when an identity absent from the previous frame
appears in the current frame's input, after that single `update` call the
identity is present in the registry and its object's *filter state* is
seeded at the supplied measurement (`kf.x[0], kf.x[3]` equal the
measurement's coordinates), while its `location` property remains the
`None` sentinel until the next update that includes it. -/
theorem C7_amended_new_identity (g : ForwardCollisionGuard)
    (ref : List (Nat × (ℚ × ℚ × ℚ))) (hnd : (ref.map Prod.fst).Nodup)
    (tid : Nat) (pt : ℚ × ℚ × ℚ)
    (hnew : List.lookup tid g.objects = none)
    (hin : List.lookup tid ref = some pt) :
    List.lookup tid (g.update ref).objects =
      some (PointWorldObject.init pt g.dt) ∧
    (PointWorldObject.init pt g.dt).kf.x 0 = pt.1 ∧
    (PointWorldObject.init pt g.dt).kf.x 3 = pt.2.1 ∧
    (PointWorldObject.init pt g.dt).location = none := by
  refine ⟨?_, rfl, rfl, rfl⟩
  rw [update_lookup_eq g ref hnd tid, hin, hnew]

/-- Witness for the amended C7 at a concrete new identity. -/
theorem C7_amended_new_identity_witness :
    (PointWorldObject.init (2, 3, 0) 1).kf.x 3 = 3 :=
  (C7_amended_new_identity exGuard [(1, (2, 3, 0))] (by decide) 1 (2, 3, 0)
    rfl rfl).2.2.1

theorem lookup_map_value {β γ : Type} (l : List (Nat × β)) (f : β → γ)
    (a : Nat) :
    List.lookup a (l.map (fun p => (p.1, f p.2))) =
      (List.lookup a l).map f := by
  induction l with
  | nil => rfl
  | cons e es ih =>
      obtain ⟨k, v⟩ := e
      rw [List.map_cons, lookup_cons_eq, lookup_cons_eq]
      by_cases h : a = k <;> simp [h, ih]

/-- **C3**: for a non-empty detection map and a camera with invertible
`K_new` (and `RT`, represented through its cached inverse `RT_inv`),
`get_reference_points` returns a map with exactly the input's identity
keys; each identity's value is the ground-plane intersection of the ray
back-projected through the reference pixel `((x1+x2)/2, y2)` of its
bounding box, computed as `O - t·S` with `t = (n·O)/(n·S)`, `n = (0,0,1)`
(that is `worldPoint`); whenever `n·S ≠ 0` the returned point has third
coordinate zero and lies on the back-projected ray through `O`. -/
theorem C3_get_reference_points_spec
    (trackers : List (Nat × (ℚ × ℚ × ℚ × ℚ))) (cam : Camera)
    (hdet : cam.K_new.det ≠ 0) (hnd : (trackers.map Prod.fst).Nodup) :
    ((get_reference_points trackers cam true).map Prod.fst =
      trackers.map Prod.fst) ∧
    (∀ tid bb, List.lookup tid trackers = some bb →
      List.lookup tid (get_reference_points trackers cam true) =
        some (worldPoint cam (refPixel bb)) ∧
      refPixel bb = ((bb.1 + bb.2.2.1) / 2, bb.2.2.2) ∧
      (rayDir cam (refPixel bb) 2 ≠ 0 →
        worldPoint cam (refPixel bb) 2 = 0 ∧
        ∃ s : ℚ, worldPoint cam (refPixel bb) =
          camOrigin cam + s • rayDir cam (refPixel bb))) := by
  constructor
  · rcases trackers with _ | ⟨e, es⟩
    · rfl
    · rw [get_reference_points, if_neg (by simp)]
      simp [List.map_map, Function.comp_def]
  · intro tid bb hbb
    have hne : trackers ≠ [] := by
      intro h
      rw [h] at hbb
      exact absurd hbb (by simp)
    refine ⟨?_, ?_, ?_⟩
    · rw [get_reference_points, if_neg hne]
      rw [show (trackers.map (fun p =>
          let rp := refPixel p.2
          let rp := if true = true then rp else cam.rectify rp
          (p.1, worldPoint cam rp))) =
          trackers.map (fun p => (p.1, worldPoint cam (refPixel p.2)))
          from by simp,
        lookup_map_value trackers (fun bb2 => worldPoint cam (refPixel bb2))
          tid, hbb]
      rfl
    · rw [refPixel, Prod.mk.injEq]
      constructor <;>
        simp [R_matrix, Matrix.mulVec, Matrix.dotProduct, Fin.sum_univ_four] <;>
        ring
    · intro hS
      constructor
      · show camOrigin cam 2 -
          camOrigin cam 2 / rayDir cam (refPixel bb) 2 *
            rayDir cam (refPixel bb) 2 = 0
        field_simp
      · refine ⟨-(camOrigin cam 2 / rayDir cam (refPixel bb) 2), ?_⟩
        funext i
        show camOrigin cam i -
            camOrigin cam 2 / rayDir cam (refPixel bb) 2 *
              rayDir cam (refPixel bb) i = _
        simp [Pi.add_apply, Pi.smul_apply, smul_eq_mul]
        ring

/-- A concrete bounding box whose reference pixel is the image center
`(0, 0)`. -/
def bbEx : ℚ × ℚ × ℚ × ℚ := (0, 0, 0, 0)

/-- A concrete well-posed camera: identity intrinsics, axis-aligned pose
with world origin `(0, 0, 10)`. -/
def camEx : Camera :=
  { K_new := 1
    RT_inv := Matrix.of ![![1, 0, 0, 0], ![0, 1, 0, 0], ![0, 0, 1, 10]]
    rectify := id }

/-- A camera whose back-projected ray through the pixel `(0, 0)` is
parallel to the ground plane: the rotation block sends the optical axis
into the plane `z = 0`, and the camera sits at height `5`. -/
def camDeg : Camera :=
  { K_new := 1
    RT_inv := Matrix.of ![![1, 0, 0, 0], ![0, 0, -1, 0], ![0, 1, 0, 5]]
    rectify := id }

/-- A malformed camera: `K_new` is the zero matrix, hence not
invertible. -/
def camBad : Camera :=
  { K_new := 0
    RT_inv := Matrix.of ![![1, 0, 0, 0], ![0, 1, 0, 0], ![0, 0, 1, 10]]
    rectify := id }

/-- `numpy.linalg.inv` with its error path kept: it raises `LinAlgError`
— here the `none` value — on a singular matrix, and returns the inverse
(`inv3`, cf. `inv3_mul_self`) otherwise. -/
def inv3E (A : Matrix (Fin 3) (Fin 3) ℚ) :
    Option (Matrix (Fin 3) (Fin 3) ℚ) :=
  if A.det = 0 then none else some (inv3 A)

/-- `get_reference_points` with numpy's error path made explicit: the
empty-input early return never touches the camera; a non-empty call
executes `inv(camera.K_new)` and therefore fails — during per-frame
processing, as `LinAlgError` alias `none` — exactly when `K_new` is
singular, and otherwise returns the projection `get_reference_points`
computes. -/
def get_reference_pointsE (trackers : List (Nat × (ℚ × ℚ × ℚ × ℚ)))
    (camera : Camera) (is_rectified : Bool) :
    Option (List (Nat × (Fin 3 → ℚ))) :=
  if trackers = [] then some []
  else
    match inv3E camera.K_new with
    | none => none
    | some _ =>
        some (trackers.map (fun p =>
          let rp := refPixel p.2
          let rp := if is_rectified then rp else camera.rectify rp
          (p.1, worldPoint camera rp)))

theorem inv3_one : inv3 (1 : Matrix (Fin 3) (Fin 3) ℚ) = 1 := by
  rw [inv3, Matrix.det_one, Matrix.adjugate_one]
  norm_num

theorem refPixel_bbEx : refPixel bbEx = (0, 0) := by
  rw [refPixel, Prod.mk.injEq]
  constructor <;>
    simp [R_matrix, bbEx, Matrix.mulVec, Matrix.dotProduct, Fin.sum_univ_four]

theorem rayDir_camEx_eq : rayDir camEx (0, 0) = ![0, 0, 1] := by
  funext i
  simp only [rayDir, show camEx.K_new = 1 from rfl, inv3_one,
    Matrix.one_mulVec, camOrigin, Pi.sub_apply]
  fin_cases i <;>
    simp [camEx, Matrix.mulVec, Matrix.dotProduct, Fin.sum_univ_four]

theorem rayDir_camDeg_eq : rayDir camDeg (0, 0) = ![0, -1, 0] := by
  funext i
  simp only [rayDir, show camDeg.K_new = 1 from rfl, inv3_one,
    Matrix.one_mulVec, camOrigin, Pi.sub_apply]
  fin_cases i <;>
    simp [camDeg, Matrix.mulVec, Matrix.dotProduct, Fin.sum_univ_four]

/-- Witness for C3 at the concrete camera `camEx` and box `bbEx`: the
projected point is returned under the input key and lies on the ground
plane. -/
theorem C3_get_reference_points_spec_witness :
    List.lookup 1 (get_reference_points [(1, bbEx)] camEx true) =
      some (worldPoint camEx (refPixel bbEx)) ∧
    worldPoint camEx (refPixel bbEx) 2 = 0 := by
  have happ := (C3_get_reference_points_spec [(1, bbEx)] camEx
      (by rw [show camEx.K_new = 1 from rfl, Matrix.det_one]; norm_num)
      (by decide)).2 1 bbEx rfl
  refine ⟨happ.1, (happ.2.2 ?_).1⟩
  rw [refPixel_bbEx, rayDir_camEx_eq]
  norm_num

/-- **C8**: for an input whose back-projected ray is parallel to the
ground plane (`n·S = 0`, here `camDeg` with the pixel at the horizon),
the division `t = (n·O)/(n·S)` is performed unguarded — no branch in
`get_reference_points` excludes the detection or clamps `t` — and the
resulting invalid world point is included in the returned map rather than
being rejected: the returned point is not even on the ground plane (its
third coordinate is the camera height `5`).  In floating point this `t`
is non-finite; exact division by zero renders the same junk value
`O - 0·S = O`. -/
theorem C8_degenerate_ray_unguarded :
    rayDir camDeg (refPixel bbEx) 2 = 0 ∧
    get_reference_points [(1, bbEx)] camDeg true =
      [(1, worldPoint camDeg (refPixel bbEx))] ∧
    worldPoint camDeg (refPixel bbEx) 2 = 5 := by
  have h2 : rayDir camDeg (refPixel bbEx) 2 = 0 := by
    rw [refPixel_bbEx, rayDir_camDeg_eq]
    simp
  refine ⟨h2, rfl, ?_⟩
  show camOrigin camDeg 2 -
      camOrigin camDeg 2 / rayDir camDeg (refPixel bbEx) 2 *
        rayDir camDeg (refPixel bbEx) 2 = 5
  rw [h2, show camOrigin camDeg 2 = 5 from rfl]
  norm_num

/-- **C9 counterexample**: with a malformed camera (`K_new` the zero
matrix, determinant `0`) nothing fails at construction time — the guard
constructor `ForwardCollisionGuard.init` does not even receive the
camera, validates nothing, and succeeds — while the per-frame call is
the code that performs the first `K_new` inversion and is where the
failure actually occurs: `get_reference_pointsE` (the projector with
numpy's `LinAlgError` path kept) returns the error value `none` on this
very first non-empty frame. -/
theorem C9_counterexample :
    camBad.K_new.det = 0 ∧
    (ForwardCollisionGuard.init (fun _ => true) (fun _ => true) 25 1 (1 / 10)
        1 (by norm_num)).objects = [] ∧
    get_reference_pointsE [(1, bbEx)] camBad true = none := by
  have hdet : camBad.K_new.det = 0 := by
    rw [show camBad.K_new = 0 from rfl]
    exact Matrix.det_zero ⟨0⟩
  refine ⟨hdet, rfl, ?_⟩
  rw [get_reference_pointsE, if_neg (by simp), inv3E, if_pos hdet]

/-- **C9 as amended**: construction performs no camera validation — the
guard constructor takes no camera at all and succeeds for any
parameters, with an empty registry — and the first inversion of `K_new`
is performed inside `get_reference_points` during per-frame processing:
on a non-empty frame, a non-invertible `K_new` makes that per-frame call
fail (`numpy.linalg.LinAlgError`, the `none` of
`get_reference_pointsE`), while an invertible `K_new` yields the
projection `get_reference_points` computes; so malformed camera matrices
surface per-frame, not at construction. -/
theorem C9_amended_per_frame_inversion (cam : Camera) (b : Bool)
    (trackers : List (Nat × (ℚ × ℚ × ℚ × ℚ))) (hne : trackers ≠ []) :
    (∀ (z v : Zone) (r l s d : ℚ) (hs : 0 < s),
      (ForwardCollisionGuard.init z v r l s d hs).objects = []) ∧
    (cam.K_new.det = 0 → get_reference_pointsE trackers cam b = none) ∧
    (cam.K_new.det ≠ 0 →
      get_reference_pointsE trackers cam b =
        some (get_reference_points trackers cam b)) := by
  refine ⟨fun _ _ _ _ _ _ _ => rfl, ?_, ?_⟩
  · intro hdet
    rw [get_reference_pointsE, if_neg hne, inv3E, if_pos hdet]
  · intro hdet
    rw [get_reference_pointsE, if_neg hne, inv3E, if_neg hdet,
      get_reference_points, if_neg hne]

/-- Witness for the amended C9: the singular `camBad` fails in the
per-frame call; the well-posed `camEx` succeeds there. -/
theorem C9_amended_per_frame_inversion_witness :
    get_reference_pointsE [(1, bbEx)] camBad true = none ∧
    get_reference_pointsE [(1, bbEx)] camEx true =
      some (get_reference_points [(1, bbEx)] camEx true) :=
  ⟨(C9_amended_per_frame_inversion camBad true [(1, bbEx)] (by simp)).2.1
      (by rw [show camBad.K_new = 0 from rfl]; exact Matrix.det_zero ⟨0⟩),
   (C9_amended_per_frame_inversion camEx true [(1, bbEx)] (by simp)).2.2
      (by rw [show camEx.K_new = 1 from rfl, Matrix.det_one]; norm_num)⟩
